import Mathlib

/-!
Shallow embedding of `mrichman/transcribe-monitor-cdk`:
  * `src/transcribe_job_starter.py` — the job-submission controller
    (`start_job_with_retry`) and its exponential-backoff helper
    (`calculate_backoff_with_jitter`);
  * `src/lambda/transcribe_concurrency_monitor.py` — the concurrency
    sampler (`lambda_handler`): paginated listing loop plus one metric
    publication.

Real numbers from the Python source (delays, jitter draws) are modelled as
rationals; the random draw `random.uniform(0, backoff * 0.25)` becomes an
explicit `jitter` parameter constrained by `0 ≤ jitter ≤ backoff * (1/4)`
in theorem hypotheses.  Service calls are modelled by oracles: for the
starter, a function from the loop's attempt index (each loop iteration
performs exactly one submission call) to the classified outcome; for the
monitor, a list of listing responses consumed in order.
-/

/-- `calculate_backoff_with_jitter` from `transcribe_job_starter.py`
(lines 83–105): `backoff = base_delay * 2**attempt`, capped at
`max_delay`, plus a jitter drawn from `uniform(0, backoff * 0.25)`; the
draw is passed in as `jitter`. -/
def calculate_backoff_with_jitter (attempt : Nat) (base_delay : Rat) (max_delay : Rat)
    (jitter : Rat) : Rat :=
  let backoff := base_delay * 2 ^ attempt
  let backoff := min backoff max_delay
  backoff + jitter

/-- Classified outcome of one `start_call_analytics_job` call, one
constructor per `except` clause of `start_job_with_retry` (success, the
four named exception classes caught there, and the catch-all
`except Exception`). -/
inductive SubmitOutcome where
  | success
  | badRequest
  | limitExceeded
  | conflict
  | internalFailure
  | serviceUnavailable
  | unknownError
  deriving DecidableEq, Repr

/-- Outcomes handled by the backoff-and-retry branches of
`start_job_with_retry` (`LimitExceededException`,
`InternalFailureException`, `ServiceUnavailableException`, and the
catch-all `except Exception`). -/
def SubmitOutcome.isTransient : SubmitOutcome → Bool
  | .limitExceeded => true
  | .internalFailure => true
  | .serviceUnavailable => true
  | .unknownError => true
  | _ => false

/-- Observable trace of one `start_job_with_retry` run:
  * `success` — the returned boolean;
  * `finalAttempt` — the value of the loop variable `attempt` when the
    function returned (`max_retries + 1` when the `for` loop was
    exhausted);
  * `calls` — how many submission calls were made;
  * `backoffAttempts` — the attempt indices passed to
    `calculate_backoff_with_jitter` before a `time.sleep`, in order;
  * `renames` — how many fresh job names were generated by the
    `ConflictException` branch. -/
structure RunTrace where
  success : Bool
  finalAttempt : Nat
  calls : Nat
  backoffAttempts : List Nat
  renames : Nat
  deriving DecidableEq, Repr

/-- Body of the `for attempt in range(config.max_retries + 1)` loop of
`start_job_with_retry` (lines 157–256).  `oracle a` is the classified
outcome of the submission call performed in the iteration with loop
variable `attempt = a` (each iteration performs exactly one call);
`fuel` is the number of loop iterations still available, so the loop
entry is `fuel = maxRetries + 1`, `attempt = 0`, and `fuel = 0` is the
fall-through `return False` after the loop. -/
def startJobGo (oracle : Nat → SubmitOutcome) (maxRetries : Nat) :
    Nat → Nat → RunTrace
  | attempt, 0 => ⟨false, attempt, 0, [], 0⟩
  | attempt, fuel + 1 =>
    match oracle attempt with
    | .success => ⟨true, attempt, 1, [], 0⟩
    | .badRequest => ⟨false, attempt, 1, [], 0⟩
    | .conflict =>
      -- new job name generated, then `continue`: the `for` loop still
      -- advances `attempt` on the next iteration
      let r := startJobGo oracle maxRetries (attempt + 1) fuel
      ⟨r.success, r.finalAttempt, r.calls + 1, r.backoffAttempts, r.renames + 1⟩
    | .limitExceeded | .internalFailure | .serviceUnavailable | .unknownError =>
      if attempt < maxRetries then
        let r := startJobGo oracle maxRetries (attempt + 1) fuel
        ⟨r.success, r.finalAttempt, r.calls + 1, attempt :: r.backoffAttempts, r.renames⟩
      else
        ⟨false, attempt, 1, [], 0⟩

/-- `start_job_with_retry` from `transcribe_job_starter.py`
(lines 141–256), as a function of the submission oracle and
`config.max_retries`. -/
def start_job_with_retry (oracle : Nat → SubmitOutcome) (max_retries : Nat) : RunTrace :=
  startJobGo oracle max_retries 0 (max_retries + 1)

/-- Result of one `list_call_analytics_jobs` call, as seen by the inner
`try` of `lambda_handler`: a successful page (its
`CallAnalyticsJobSummaries` length and optional `NextToken`), or a
`ClientError` carrying its error code. -/
inductive ListCallResult where
  | ok (summariesCount : Nat) (nextToken : Option String)
  | clientError (code : String)
  deriving DecidableEq, Repr

/-- Python truthiness of the `NextToken` value: `None` and the empty
string are falsy (`if not next_token: break` / `if next_token:`). -/
def tokenTruthy : Option String → Bool
  | none => false
  | some s => !s.isEmpty

/-- Error codes that the `elif` chain of `lambda_handler` (lines 52–72)
handles with `break`; any other code is re-raised. -/
def handledErrorCode (code : String) : Bool :=
  code == "BadRequestException" || code == "LimitExceededException" ||
  code == "InternalFailureException" || code == "ConflictException" ||
  code == "ServiceUnavailableException"

/-- The `params` dict built for each `list_call_analytics_jobs` call:
`Status` and `MaxResults` always, `NextToken` only when the current
token is truthy. -/
structure ListReq where
  status : String
  maxResults : Nat
  nextToken : Option String
  deriving DecidableEq, Repr

/-- Build the request parameters for the current token (lines 26–33). -/
def mkListParams (tok : Option String) : ListReq :=
  { status := "IN_PROGRESS", maxResults := 100,
    nextToken := if tokenTruthy tok then tok else none }

/-- The `while True` pagination loop of `lambda_handler` (lines 24–75),
consuming listing responses in order.  Returns the requests issued and
either the final `concurrent_jobs` count or the code of a re-raised
error.  An exhausted response list while the loop still wants a page is
a model artifact reported as `Except.error "ResponsesExhausted"`. -/
def countLoopGo : List ListCallResult → Option String → Int →
    List ListReq × Except String Int
  | [], _, _ => ([], .error "ResponsesExhausted")
  | r :: rest, tok, acc =>
    let req := mkListParams tok
    match r with
    | .ok n ntok =>
      if tokenTruthy ntok then
        let s := countLoopGo rest ntok (acc + n)
        (req :: s.1, s.2)
      else
        ([req], .ok (acc + n))
    | .clientError code =>
      if handledErrorCode code then ([req], .ok acc)
      else ([req], .error code)

/-- The pagination phase of `lambda_handler`: `concurrent_jobs = 0`,
`next_token = None`, then the loop. -/
def countJobs (responses : List ListCallResult) : List ListReq × Except String Int :=
  countLoopGo responses none 0

/-- One `put_metric_data` call (lines 82–93). -/
structure MetricDatum where
  metricNamespace : String
  metricName : String
  value : Int
  unit : String
  dimensions : List (String × String)
  deriving DecidableEq, Repr

/-- The dict returned by `lambda_handler` on success (lines 103–106). -/
structure LambdaResponse where
  statusCode : Nat
  body : String
  deriving DecidableEq, Repr

/-- `lambda_handler` from `transcribe_concurrency_monitor.py`: run the
pagination loop; on a re-raised listing error the outer
`except Exception` re-raises it (no metric published); otherwise publish
exactly one metric datum — a publish `ClientError` (`publishFails`) is
caught, printed and swallowed — and return the 200 response carrying the
accumulated count.  `envNamespace` models `os.environ.get`.  Returns the
`put_metric_data` calls made and the handler's result. -/
def lambda_handler (responses : List ListCallResult) (envNamespace : Option String)
    (publishFails : Bool) : List MetricDatum × Except String LambdaResponse :=
  match (countJobs responses).2 with
  | .error e => ([], .error e)
  | .ok concurrent_jobs =>
    let ns := envNamespace.getD "TranscribeMonitoring"
    let datum : MetricDatum :=
      { metricNamespace := ns, metricName := "ConcurrentCallAnalyticsJobs",
        value := concurrent_jobs, unit := "Count",
        dimensions := [("Service", "Transcribe")] }
    ([datum],
     .ok { statusCode := 200,
           body := "Current concurrent Transcribe call analytics jobs: "
             ++ toString concurrent_jobs })

/-- Helper for the all-transient run (C2): from loop variable `a` with
`a + k = m`, the remaining iterations all hit the backoff branch, sleep
at attempts `a, a+1, …, m-1`, and abandon at attempt `m`. -/
theorem startJobGo_all_transient (oracle : Nat → SubmitOutcome) (m : Nat)
    (h : ∀ i, (oracle i).isTransient = true) :
    ∀ k a, a + k = m →
      startJobGo oracle m a (k + 1) = ⟨false, m, k + 1, List.range' a k, 0⟩ := by
  intro k
  induction k with
  | zero =>
    intro a ha
    have hnlt : ¬ a < m := by omega
    have ht := h a
    cases horacle : oracle a with
    | success => rw [horacle] at ht; simp [SubmitOutcome.isTransient] at ht
    | badRequest => rw [horacle] at ht; simp [SubmitOutcome.isTransient] at ht
    | conflict => rw [horacle] at ht; simp [SubmitOutcome.isTransient] at ht
    | limitExceeded =>
      conv_lhs => rw [startJobGo, horacle]
      dsimp only
      rw [if_neg hnlt]
      simp [List.range', show a = m by omega]
    | internalFailure =>
      conv_lhs => rw [startJobGo, horacle]
      dsimp only
      rw [if_neg hnlt]
      simp [List.range', show a = m by omega]
    | serviceUnavailable =>
      conv_lhs => rw [startJobGo, horacle]
      dsimp only
      rw [if_neg hnlt]
      simp [List.range', show a = m by omega]
    | unknownError =>
      conv_lhs => rw [startJobGo, horacle]
      dsimp only
      rw [if_neg hnlt]
      simp [List.range', show a = m by omega]
  | succ n ih =>
    intro a ha
    have hlt : a < m := by omega
    have hrec := ih (a + 1) (by omega)
    have ht := h a
    cases horacle : oracle a with
    | success => rw [horacle] at ht; simp [SubmitOutcome.isTransient] at ht
    | badRequest => rw [horacle] at ht; simp [SubmitOutcome.isTransient] at ht
    | conflict => rw [horacle] at ht; simp [SubmitOutcome.isTransient] at ht
    | limitExceeded =>
      conv_lhs => rw [startJobGo, horacle]
      dsimp only
      rw [if_pos hlt, hrec, List.range'_succ]
    | internalFailure =>
      conv_lhs => rw [startJobGo, horacle]
      dsimp only
      rw [if_pos hlt, hrec, List.range'_succ]
    | serviceUnavailable =>
      conv_lhs => rw [startJobGo, horacle]
      dsimp only
      rw [if_pos hlt, hrec, List.range'_succ]
    | unknownError =>
      conv_lhs => rw [startJobGo, horacle]
      dsimp only
      rw [if_pos hlt, hrec, List.range'_succ]

/-- C2: when every submission call fails with a transient error
(`LimitExceededException`, `InternalFailureException`,
`ServiceUnavailableException`, or the catch-all unknown error),
`start_job_with_retry` with `max_retries = m` performs exactly `m + 1`
submission calls (m retries), computes a backoff and sleeps before each of
the `m` retries — at attempt indices `0, …, m-1` — and abandons at
attempt `m` with no sleep, returning failure. -/
theorem transient_only_run_exhausts_budget (oracle : Nat → SubmitOutcome) (m : Nat)
    (h : ∀ i, (oracle i).isTransient = true) :
    start_job_with_retry oracle m = ⟨false, m, m + 1, List.range m, 0⟩ := by
  have hmain := startJobGo_all_transient oracle m h m 0 (by omega)
  rw [start_job_with_retry, hmain, List.range_eq_range']

/-- Witness for C2 at `max_retries = 2` and an oracle that always answers
`LimitExceededException`: 3 submission calls, sleeps before retries at
attempts 0 and 1, failure returned. -/
theorem transient_only_run_exhausts_budget_witness :
    start_job_with_retry (fun _ => SubmitOutcome.limitExceeded) 2
      = ⟨false, 2, 3, List.range 2, 0⟩ :=
  transient_only_run_exhausts_budget (fun _ => SubmitOutcome.limitExceeded) 2 (fun _ => rfl)

/-- C8: a `BadRequestException` outcome on the first submission call makes
`start_job_with_retry` return failure immediately: one call, no backoff
sleep, no rename; and in general a bad-request outcome at the current
attempt ends the loop at once on any attempt with fuel remaining. -/
theorem bad_request_abandons_immediately (oracle : Nat → SubmitOutcome) (m : Nat) :
    (oracle 0 = SubmitOutcome.badRequest →
      start_job_with_retry oracle m = ⟨false, 0, 1, [], 0⟩) ∧
    (∀ a fuel, oracle a = SubmitOutcome.badRequest →
      startJobGo oracle m a (fuel + 1) = ⟨false, a, 1, [], 0⟩) := by
  constructor
  · intro h
    rw [start_job_with_retry]
    conv_lhs => rw [startJobGo, h]
  · intro a fuel h
    conv_lhs => rw [startJobGo, h]

/-- Witness for C8: an oracle always answering `BadRequestException`, with
`max_retries = 5`; also the general conjunct at attempt 3 with fuel 2. -/
theorem bad_request_abandons_immediately_witness :
    start_job_with_retry (fun _ => SubmitOutcome.badRequest) 5 = ⟨false, 0, 1, [], 0⟩ ∧
    startJobGo (fun _ => SubmitOutcome.badRequest) 5 3 (2 + 1) = ⟨false, 3, 1, [], 0⟩ :=
  ⟨(bad_request_abandons_immediately (fun _ => SubmitOutcome.badRequest) 5).1 rfl,
   (bad_request_abandons_immediately (fun _ => SubmitOutcome.badRequest) 5).2 3 2 rfl⟩

/-- Helper for C10: the loop body never performs more submission calls
than it has fuel. -/
theorem startJobGo_calls_le_fuel (oracle : Nat → SubmitOutcome) (m : Nat) :
    ∀ fuel a, (startJobGo oracle m a fuel).calls ≤ fuel := by
  intro fuel
  induction fuel with
  | zero => intro a; simp [startJobGo]
  | succ n ih =>
    intro a
    cases h : oracle a with
    | success =>
      conv_lhs => rw [startJobGo, h]
      dsimp only
      omega
    | badRequest =>
      conv_lhs => rw [startJobGo, h]
      dsimp only
      omega
    | conflict =>
      conv_lhs => rw [startJobGo, h]
      dsimp only
      have := ih (a + 1)
      omega
    | limitExceeded =>
      conv_lhs => rw [startJobGo, h]
      dsimp only
      split
      · dsimp only
        have := ih (a + 1)
        omega
      · dsimp only
        omega
    | internalFailure =>
      conv_lhs => rw [startJobGo, h]
      dsimp only
      split
      · dsimp only
        have := ih (a + 1)
        omega
      · dsimp only
        omega
    | serviceUnavailable =>
      conv_lhs => rw [startJobGo, h]
      dsimp only
      split
      · dsimp only
        have := ih (a + 1)
        omega
      · dsimp only
        omega
    | unknownError =>
      conv_lhs => rw [startJobGo, h]
      dsimp only
      split
      · dsimp only
        have := ih (a + 1)
        omega
      · dsimp only
        omega

/-- Helper for C10: when the oracle answers `ConflictException` at every
attempt index the loop can reach, each iteration renames, calls once and
advances `attempt`, so the loop exhausts its fuel and returns failure. -/
theorem startJobGo_all_conflicts (oracle : Nat → SubmitOutcome) (m : Nat)
    (h : ∀ i, i < m + 1 → oracle i = SubmitOutcome.conflict) :
    ∀ fuel a, a + fuel = m + 1 →
      startJobGo oracle m a fuel = ⟨false, m + 1, fuel, [], fuel⟩ := by
  intro fuel
  induction fuel with
  | zero =>
    intro a ha
    simp [startJobGo, show a = m + 1 by omega]
  | succ n ih =>
    intro a ha
    have hc : oracle a = SubmitOutcome.conflict := h a (by omega)
    have hrec := ih (a + 1) (by omega)
    conv_lhs => rw [startJobGo, hc]
    dsimp only
    rw [hrec]

/-- C10: a single run of `start_job_with_retry` with `max_retries = m`
makes at most `m + 1` submission calls whatever the outcome sequence —
including any number of `ConflictException` outcomes, because a
name-conflict `continue` still advances the bounded `for` loop — and
`m + 1` consecutive conflicts exhaust the loop and return failure (after
renaming at every iteration and never sleeping). -/
theorem run_bounded_and_conflicts_exhaust_loop (oracle : Nat → SubmitOutcome) (m : Nat) :
    (start_job_with_retry oracle m).calls ≤ m + 1 ∧
    ((∀ i, i < m + 1 → oracle i = SubmitOutcome.conflict) →
      start_job_with_retry oracle m = ⟨false, m + 1, m + 1, [], m + 1⟩) := by
  constructor
  · exact startJobGo_calls_le_fuel oracle m (m + 1) 0
  · intro h
    exact startJobGo_all_conflicts oracle m h (m + 1) 0 (by omega)

/-- Witness for C10 at `max_retries = 2` with an oracle answering
`ConflictException` on every call: 3 calls, then failure. -/
theorem run_bounded_and_conflicts_exhaust_loop_witness :
    (start_job_with_retry (fun _ => SubmitOutcome.conflict) 2).calls ≤ 3 ∧
    start_job_with_retry (fun _ => SubmitOutcome.conflict) 2 = ⟨false, 3, 3, [], 3⟩ :=
  ⟨(run_bounded_and_conflicts_exhaust_loop (fun _ => SubmitOutcome.conflict) 2).1,
   (run_bounded_and_conflicts_exhaust_loop (fun _ => SubmitOutcome.conflict) 2).2
     (fun _ _ => rfl)⟩

/-- C1 (evidence that the code contradicts the claim and its own inline
comment): with `max_retries = 2` and `ConflictException` on the first
three submission calls, the three rename iterations consume all three
loop iterations and the run returns failure without ever reaching the
submission that would succeed; and with `max_retries = 5` the same
conflict prefix succeeds only at loop variable `attempt = 3` — the
attempt counter did advance on each conflict, not stay at 0. -/
theorem conflict_retries_consume_attempt_budget :
    start_job_with_retry
        (fun a => if a < 3 then SubmitOutcome.conflict else SubmitOutcome.success) 2
      = ⟨false, 3, 3, [], 3⟩ ∧
    start_job_with_retry
        (fun a => if a < 3 then SubmitOutcome.conflict else SubmitOutcome.success) 5
      = ⟨true, 3, 4, [], 3⟩ :=
  ⟨rfl, rfl⟩

/-- C3: for every attempt index `a`, base delay `b > 0`, max delay
`M > 0`, and every jitter draw `j` in the allowed range
`[0, min(b*2^a, M) * 0.25]`, the returned backoff lies in
`[min(b*2^a, M), min(b*2^a, M) * 1.25]`; in particular the jitter is
additive and never reduces the capped exponential delay. -/
theorem backoff_with_jitter_in_interval (a : Nat) (b M j : Rat) (hb : 0 < b) (hM : 0 < M)
    (hj0 : 0 ≤ j) (hj1 : j ≤ min (b * 2 ^ a) M * (1 / 4)) :
    min (b * 2 ^ a) M ≤ calculate_backoff_with_jitter a b M j ∧
      calculate_backoff_with_jitter a b M j ≤ min (b * 2 ^ a) M * (5 / 4) := by
  have heq : calculate_backoff_with_jitter a b M j = min (b * 2 ^ a) M + j := rfl
  rw [heq]
  constructor <;> linarith

/-- Witness for C3 at `attempt = 1`, `base_delay = 1`, `max_delay = 60`,
jitter draw `1/2` (admissible: the cap is 2, a quarter of it is `1/2`):
the wait `5/2` lies in `[2, 5/2]`. -/
theorem backoff_with_jitter_in_interval_witness :
    (0 : Rat) < 1 ∧ (0 : Rat) < 60 ∧ (0 : Rat) ≤ 1 / 2 ∧
      (1 / 2 : Rat) ≤ min ((1 : Rat) * 2 ^ 1) 60 * (1 / 4) ∧
      (min ((1 : Rat) * 2 ^ 1) 60 ≤ calculate_backoff_with_jitter 1 1 60 (1 / 2) ∧
        calculate_backoff_with_jitter 1 1 60 (1 / 2) ≤ min ((1 : Rat) * 2 ^ 1) 60 * (5 / 4)) :=
  ⟨by norm_num, by norm_num, by norm_num, by norm_num [min_def],
   backoff_with_jitter_in_interval 1 1 60 (1 / 2) (by norm_num) (by norm_num)
     (by norm_num) (by norm_num [min_def])⟩

/-- C4 counterexample: with `base_delay = 1` and `max_delay = 1`, the
jitter draws `1/4` at attempt 0 and `0` at attempt 1 are both admissible
(each is within a quarter of the capped delay), yet the wait at attempt 1
is strictly smaller than the wait at attempt 0 — so the sequence of
actual waits is not non-decreasing for every admissible draw. -/
theorem backoff_wait_sequence_not_monotone :
    (0 : Rat) ≤ 1 / 4 ∧ (1 / 4 : Rat) ≤ min ((1 : Rat) * 2 ^ 0) 1 * (1 / 4) ∧
      (0 : Rat) ≤ 0 ∧ (0 : Rat) ≤ min ((1 : Rat) * 2 ^ 1) 1 * (1 / 4) ∧
      calculate_backoff_with_jitter 1 1 1 0 < calculate_backoff_with_jitter 0 1 1 (1 / 4) := by
  norm_num [calculate_backoff_with_jitter, min_def]

/-- C4 amended: within one run the sequence of capped exponential delays
(the jitter-free part, which is also each wait's lower bound) is
non-decreasing in the attempt index, and every actual wait with an
admissible jitter draw is bounded above by `max_delay * 1.25`; the
jittered waits themselves need not be non-decreasing. -/
theorem backoff_capped_delay_monotone_wait_bounded (a : Nat) (b M j : Rat)
    (hb : 0 ≤ b) (hj0 : 0 ≤ j) (hj1 : j ≤ min (b * 2 ^ a) M * (1 / 4)) :
    min (b * 2 ^ a) M ≤ min (b * 2 ^ (a + 1)) M ∧
      calculate_backoff_with_jitter a b M j ≤ M * (5 / 4) := by
  have hpow : (2 : Rat) ^ a ≤ 2 ^ (a + 1) :=
    pow_le_pow_right₀ (by norm_num) (Nat.le_succ a)
  have hmin : min (b * 2 ^ a) M ≤ M := min_le_right _ _
  have heq : calculate_backoff_with_jitter a b M j = min (b * 2 ^ a) M + j := rfl
  constructor
  · exact min_le_min (mul_le_mul_of_nonneg_left hpow hb) le_rfl
  · rw [heq]; linarith

/-- Witness for the amended C4 at `attempt = 0`, `base_delay = 1`,
`max_delay = 60`, jitter draw `0`. -/
theorem backoff_capped_delay_monotone_wait_bounded_witness :
    (0 : Rat) ≤ 1 ∧ (0 : Rat) ≤ 0 ∧ (0 : Rat) ≤ min ((1 : Rat) * 2 ^ 0) 60 * (1 / 4) ∧
      (min ((1 : Rat) * 2 ^ 0) 60 ≤ min ((1 : Rat) * 2 ^ (0 + 1)) 60 ∧
        calculate_backoff_with_jitter 0 1 60 0 ≤ 60 * (5 / 4)) :=
  ⟨by norm_num, le_refl 0, by norm_num [min_def],
   backoff_capped_delay_monotone_wait_bounded 0 1 60 0 (by norm_num) (by norm_num)
     (by norm_num [min_def])⟩

/-- A page description `(summaries count, NextToken)` as a successful
listing response. -/
def pageOk (p : Nat × Option String) : ListCallResult :=
  ListCallResult.ok p.1 p.2

/-- Sum of the per-page summary counts, accumulated as the Python `int`
`concurrent_jobs`. -/
def pagesSum (pages : List (Nat × Option String)) : Int :=
  ((pages.map Prod.fst).sum : Nat)

/-- The requests the pagination loop issues for a run of successful
pages starting from token `tok`: one request per page, each built from
the token carried by the previous page. -/
def pageReqs (tok : Option String) : List (Nat × Option String) → List ListReq
  | [] => []
  | p :: rest => mkListParams tok :: pageReqs p.2 rest

/-- Helper: one loop step on a successful page whose token is truthy:
issue the request, add the page count, and continue with the new token. -/
theorem countLoopGo_ok_cons (n : Nat) (ntok : Option String)
    (ht : tokenTruthy ntok = true) (rest : List ListCallResult)
    (tok : Option String) (acc : Int) :
    countLoopGo (ListCallResult.ok n ntok :: rest) tok acc
      = (mkListParams tok :: (countLoopGo rest ntok (acc + n)).1,
         (countLoopGo rest ntok (acc + n)).2) := by
  simp [countLoopGo, ht]

/-- Helper: `pagesSum` distributes over `cons`. -/
theorem pagesSum_cons (p : Nat × Option String) (l : List (Nat × Option String)) :
    pagesSum (p :: l) = p.1 + pagesSum l := by
  simp [pagesSum]

/-- Helper: on pages whose non-final tokens are truthy and whose final
token is falsy, the loop consumes every page, issues `pageReqs`, and
returns the accumulated sum. -/
theorem countLoopGo_ok_pages (last : Nat × Option String)
    (hlast : tokenTruthy last.2 = false) :
    ∀ (ps : List (Nat × Option String)), (∀ p ∈ ps, tokenTruthy p.2 = true) →
    ∀ tok acc, countLoopGo ((ps ++ [last]).map pageOk) tok acc
      = (pageReqs tok (ps ++ [last]), Except.ok (acc + pagesSum (ps ++ [last]))) := by
  intro ps
  induction ps with
  | nil =>
    intro _ tok acc
    simp [countLoopGo, pageOk, hlast, pageReqs, pagesSum]
  | cons p ps ih =>
    intro hps tok acc
    have hp : tokenTruthy p.2 = true := hps p (List.mem_cons_self _ _)
    have ih' := ih (fun q hq => hps q (List.mem_cons_of_mem _ hq)) p.2 (acc + p.1)
    rw [List.cons_append, List.map_cons]
    rw [show pageOk p = ListCallResult.ok p.1 p.2 from rfl]
    rw [countLoopGo_ok_cons p.1 p.2 hp _ tok acc, ih']
    rw [pageReqs, pagesSum_cons]
    dsimp only
    rw [add_assoc]

/-- Helper: the tokens carried by the issued requests are the starting
token followed by each non-final page's token. -/
theorem pageReqs_nextTokens (last : Nat × Option String) :
    ∀ (ps : List (Nat × Option String)), (∀ p ∈ ps, tokenTruthy p.2 = true) →
    ∀ tok, (pageReqs tok (ps ++ [last])).map ListReq.nextToken
      = (mkListParams tok).nextToken :: ps.map Prod.snd := by
  intro ps
  induction ps with
  | nil => intro _ tok; simp [pageReqs]
  | cons p ps ih =>
    intro hps tok
    have hp : tokenTruthy p.2 = true := hps p (List.mem_cons_self _ _)
    have ih' := ih (fun q hq => hps q (List.mem_cons_of_mem _ hq)) p.2
    rw [List.cons_append, pageReqs, List.map_cons, ih']
    simp [mkListParams, hp]

/-- Helper: every issued request asks for `IN_PROGRESS` jobs with page
size 100. -/
theorem pageReqs_fields :
    ∀ (pages : List (Nat × Option String)) (tok : Option String),
      ∀ r ∈ pageReqs tok pages, r.status = "IN_PROGRESS" ∧ r.maxResults = 100 := by
  intro pages
  induction pages with
  | nil => intro tok r hr; simp [pageReqs] at hr
  | cons p ps ih =>
    intro tok r hr
    rcases List.mem_cons.mp (by simpa [pageReqs] using hr) with h | h
    · subst h; exact ⟨rfl, rfl⟩
    · exact ih p.2 r h

/-- Helper: one request is issued per page. -/
theorem pageReqs_length :
    ∀ (pages : List (Nat × Option String)) (tok : Option String),
      (pageReqs tok pages).length = pages.length := by
  intro pages
  induction pages with
  | nil => intro tok; rfl
  | cons p ps ih => intro tok; simp [pageReqs, ih p.2]

/-- C5: for every finite sequence of listing pages in which each
non-final page carries a truthy continuation token and the final page
carries none, the pagination loop of `lambda_handler` returns the sum of
the per-page summary counts, makes one request per page — each asking
for `IN_PROGRESS` jobs with page size 100 — and passes no token on the
first request and the previous page's token on every later request,
stopping exactly at the page whose token is empty or absent. -/
theorem sampler_sums_pages_and_paginates (ps : List (Nat × Option String))
    (last : Nat × Option String)
    (hps : ∀ p ∈ ps, tokenTruthy p.2 = true) (hlast : tokenTruthy last.2 = false) :
    (countJobs ((ps ++ [last]).map pageOk)).2 = Except.ok (pagesSum (ps ++ [last])) ∧
    (∀ r ∈ (countJobs ((ps ++ [last]).map pageOk)).1,
      r.status = "IN_PROGRESS" ∧ r.maxResults = 100) ∧
    ((countJobs ((ps ++ [last]).map pageOk)).1).map ListReq.nextToken
      = none :: ps.map Prod.snd ∧
    ((countJobs ((ps ++ [last]).map pageOk)).1).length = (ps ++ [last]).length := by
  have hmain := countLoopGo_ok_pages last hlast ps hps none 0
  refine ⟨?_, ?_, ?_, ?_⟩
  · rw [countJobs, hmain]
    simp
  · rw [countJobs, hmain]
    intro r hr
    exact pageReqs_fields (ps ++ [last]) none r hr
  · rw [countJobs, hmain]
    have htoks := pageReqs_nextTokens last ps hps none
    simpa [mkListParams, tokenTruthy] using htoks
  · rw [countJobs, hmain]
    exact pageReqs_length (ps ++ [last]) none

/-- Witness for C5 on two pages `(2, "a")` then `(3, none)`: count 5,
two requests with tokens `none` then `some "a"`. -/
theorem sampler_sums_pages_and_paginates_witness :
    (countJobs (([((2 : Nat), some "a")] ++ [((3 : Nat), (none : Option String))]).map
        pageOk)).2 = Except.ok 5 ∧
    ((countJobs (([((2 : Nat), some "a")] ++ [((3 : Nat), (none : Option String))]).map
        pageOk)).1).map ListReq.nextToken = [none, some "a"] :=
  ⟨(sampler_sums_pages_and_paginates [(2, some "a")] (3, none) (by decide) rfl).1,
   (sampler_sums_pages_and_paginates [(2, some "a")] (3, none) (by decide) rfl).2.2.1⟩

/-- Helper for C6: after a run of successful truthy-token pages, a
handled `ClientError` stops pagination with the partial sum; anything
after the error is never consumed. -/
theorem countLoopGo_ok_then_handled (code : String)
    (hcode : handledErrorCode code = true) (rest : List ListCallResult) :
    ∀ (ps : List (Nat × Option String)), (∀ p ∈ ps, tokenTruthy p.2 = true) →
    ∀ tok acc,
      (countLoopGo (ps.map pageOk ++ ListCallResult.clientError code :: rest) tok acc).2
        = Except.ok (acc + pagesSum ps) := by
  intro ps
  induction ps with
  | nil =>
    intro _ tok acc
    simp [countLoopGo, hcode, pagesSum]
  | cons p ps ih =>
    intro hps tok acc
    have hp : tokenTruthy p.2 = true := hps p (List.mem_cons_self _ _)
    have ih' := ih (fun q hq => hps q (List.mem_cons_of_mem _ hq)) p.2 (acc + p.1)
    rw [List.map_cons, List.cons_append]
    rw [show pageOk p = ListCallResult.ok p.1 p.2 from rfl]
    rw [countLoopGo_ok_cons p.1 p.2 hp _ tok acc]
    dsimp only
    rw [ih', pagesSum_cons, add_assoc]

/-- C6: if the first `N` listing pages succeed with truthy continuation
tokens and the next listing call fails with a classified error
(bad-request, limit-exceeded, internal-failure, conflict, or
unavailable), the pagination loop does not fail: it stops and reports
the sum of the first `N` pages' counts. -/
theorem sampler_partial_count_on_transient_error (ps : List (Nat × Option String))
    (code : String) (rest : List ListCallResult)
    (hps : ∀ p ∈ ps, tokenTruthy p.2 = true) (hcode : handledErrorCode code = true) :
    (countJobs (ps.map pageOk ++ ListCallResult.clientError code :: rest)).2
      = Except.ok (pagesSum ps) := by
  have hmain := countLoopGo_ok_then_handled code hcode rest ps hps none 0
  rw [countJobs]
  simpa using hmain

/-- Witness for C6: pages of 100 and 100 followed by a
`LimitExceededException` page yield 200. -/
theorem sampler_partial_count_on_transient_error_witness :
    (countJobs ([((100 : Nat), some "t1"), ((100 : Nat), some "t2")].map pageOk
        ++ ListCallResult.clientError "LimitExceededException" :: [])).2
      = Except.ok 200 :=
  sampler_partial_count_on_transient_error [(100, some "t1"), (100, some "t2")]
    "LimitExceededException" [] (by decide) rfl

/-- Helper for C7: the accumulator starts at 0 and only grows by page
counts, so any successfully returned count is non-negative. -/
theorem countLoopGo_nonneg :
    ∀ (responses : List ListCallResult) (tok : Option String) (acc : Int), 0 ≤ acc →
      ∀ n, (countLoopGo responses tok acc).2 = Except.ok n → 0 ≤ n := by
  intro responses
  induction responses with
  | nil =>
    intro tok acc hacc n h
    simp [countLoopGo] at h
  | cons r rest ih =>
    intro tok acc hacc n h
    cases r with
    | ok k ntok =>
      simp only [countLoopGo] at h
      split at h
      · exact ih ntok (acc + k) (by omega) n (by simpa using h)
      · simp only at h
        rw [Except.ok.injEq] at h
        omega
    | clientError code =>
      simp only [countLoopGo] at h
      split at h
      · simp only at h
        rw [Except.ok.injEq] at h
        omega
      · simp at h

/-- C7 counterexample: when the very first listing call fails with the
classified code `LimitExceededException`, `lambda_handler` does not
fail: the loop breaks with count 0 and the handler publishes the metric
and returns the 200 response reporting 0 — not an error. -/
theorem sampler_first_page_transient_error_returns_zero :
    (lambda_handler [ListCallResult.clientError "LimitExceededException"] none false).2
      = Except.ok ⟨200, "Current concurrent Transcribe call analytics jobs: 0"⟩ ∧
    (lambda_handler [ListCallResult.clientError "LimitExceededException"] none false).1
      = [⟨"TranscribeMonitoring", "ConcurrentCallAnalyticsJobs", 0, "Count",
          [("Service", "Transcribe")]⟩] :=
  ⟨rfl, rfl⟩

/-- C7 amended: the pagination loop's successful result is always a
non-negative integer; a first listing call failing with an unclassified
error code makes the run fail by re-raising that error, while a first
listing call failing with one of the five classified codes yields a
successful count of 0 rather than a failure. -/
theorem sampler_nonneg_and_first_page_failure (code : String) :
    (∀ responses n, (countJobs responses).2 = Except.ok n → 0 ≤ n) ∧
    (∀ rest, handledErrorCode code = false →
      (countJobs (ListCallResult.clientError code :: rest)).2 = Except.error code) ∧
    (∀ rest, handledErrorCode code = true →
      (countJobs (ListCallResult.clientError code :: rest)).2 = Except.ok 0) := by
  refine ⟨?_, ?_, ?_⟩
  · intro responses n h
    exact countLoopGo_nonneg responses none 0 le_rfl n (by simpa [countJobs] using h)
  · intro rest hc
    simp [countJobs, countLoopGo, hc]
  · intro rest hc
    simp [countJobs, countLoopGo, hc]

/-- Witness for the amended C7: a concrete successful count is
non-negative; an unclassified first-page error propagates; a classified
first-page error yields 0. -/
theorem sampler_nonneg_and_first_page_failure_witness :
    (0 : Int) ≤ 5 ∧
    (countJobs [ListCallResult.clientError "SomeOtherError"]).2
      = Except.error "SomeOtherError" ∧
    (countJobs [ListCallResult.clientError "ServiceUnavailableException"]).2
      = Except.ok 0 :=
  ⟨(sampler_nonneg_and_first_page_failure "SomeOtherError").1
      [ListCallResult.ok 5 none] 5 rfl,
   (sampler_nonneg_and_first_page_failure "SomeOtherError").2.1 [] rfl,
   (sampler_nonneg_and_first_page_failure "ServiceUnavailableException").2.2 [] rfl⟩

/-- C9: whenever pagination completes (fully or through an early handled
stop) with count `n`, `lambda_handler` makes exactly one
`put_metric_data` call — namespace from the environment setting or the
default, metric name `ConcurrentCallAnalyticsJobs`, value `n`, unit
`Count`, dimension `Service = Transcribe` — and returns the 200
response carrying `n`, for either value of `publishFails`: a failed
publish is swallowed and never changes the returned count. -/
theorem sampler_publishes_once_and_swallows_publish_failure
    (responses : List ListCallResult) (env : Option String) (publishFails : Bool)
    (n : Int) (h : (countJobs responses).2 = Except.ok n) :
    (lambda_handler responses env publishFails).1
      = [⟨env.getD "TranscribeMonitoring", "ConcurrentCallAnalyticsJobs", n, "Count",
          [("Service", "Transcribe")]⟩] ∧
    (lambda_handler responses env publishFails).2
      = Except.ok ⟨200, "Current concurrent Transcribe call analytics jobs: "
          ++ toString n⟩ := by
  simp [lambda_handler, h]

/-- Witness for C9 with one final page of 7 jobs, an explicit namespace,
and a failing publish: one datum is published and the count 7 is still
returned. -/
theorem sampler_publishes_once_and_swallows_publish_failure_witness :
    (lambda_handler [ListCallResult.ok 7 none] (some "MyNS") true).1
      = [⟨"MyNS", "ConcurrentCallAnalyticsJobs", 7, "Count", [("Service", "Transcribe")]⟩] ∧
    (lambda_handler [ListCallResult.ok 7 none] (some "MyNS") true).2
      = Except.ok ⟨200, "Current concurrent Transcribe call analytics jobs: "
          ++ toString (7 : Int)⟩ :=
  sampler_publishes_once_and_swallows_publish_failure
    [ListCallResult.ok 7 none] (some "MyNS") true 7 rfl
